import Mathlib

/-!
Shallow embedding of the natural-language task parser of `src/App.js`
(function `parseNaturalLanguage`), together with theorems settling the
frozen claims about it.

Modelling conventions:
* Strings are Lean `String`s; the source operates on ASCII text, and
  `text.toLowerCase()` is modelled by per-character ASCII lowering.
* Calendar dates are day counts (`Nat`) with day 0 = 0000-03-01 of the
  proleptic Gregorian calendar (the civil-date conversions below are the
  standard era-based algorithms, valid for all years ≥ 1, which covers
  every instant a real clock can supply).  A JS `Date` produced by the
  parser is always a midnight instant, so it is represented by its day
  count; `Date.getDay` (Sunday = 0) becomes `(t + 3) % 7` since day 0 is
  a Wednesday.
* A due time string `"HH:MM"` (built with `padStart`) is represented by
  the pair (hours, minutes), which determines it uniquely.
* Each JS regex used by the source is translated into an explicit
  left-to-right scanner with the same leftmost-match, ordered-alternation
  and greedy semantics (justified case by case in comments).
-/

namespace TaskParser

/-- ASCII lowering of a string, modelling `text.toLowerCase()` on the
ASCII inputs the parser receives. -/
def lowerStr (s : String) : String := String.mk (s.toList.map Char.toLower)

/-- Does `l` begin with `pat`? -/
def listStartsWith : List Char → List Char → Bool
  | [], _ => true
  | _ :: _, [] => false
  | p :: ps, c :: cs => p == c && listStartsWith ps cs

/-- Does `pat` occur contiguously inside `l`?  (JS `String.includes`.) -/
def listContains (pat : List Char) : List Char → Bool
  | [] => pat.isEmpty
  | c :: rest => listStartsWith pat (c :: rest) || listContains pat rest

/-- `hay.includes(pat)` of JS. -/
def containsStr (hay pat : String) : Bool := listContains pat.toList hay.toList

/-- `\d` of JS regexes. -/
def isDig (c : Char) : Bool := 48 ≤ c.toNat && c.toNat ≤ 57

/-- Numeric value of a digit character. -/
def digVal (c : Char) : Nat := c.toNat - 48

/-- `parseInt` on a run of digit characters. -/
def natOfDigits (ds : List Char) : Nat := ds.foldl (fun a c => a * 10 + digVal c) 0

/-! ### The `in (\d+) days?` regex (date stage, applied to the lowercased text)

No word boundaries and no case flag appear in the source regex; the text it
runs on is already lowercased.  `\d+` is greedy and is followed by a literal
space, so maximal digit munching needs no backtracking. -/

/-- Attempt `in (\d+) days?` at the head of `l`; returns the captured `N`. -/
def inDaysAt : List Char → Option Nat
  | 'i' :: 'n' :: ' ' :: rest =>
    let ds := rest.takeWhile isDig
    if ds.isEmpty then none
    else
      match rest.dropWhile isDig with
      | ' ' :: 'd' :: 'a' :: 'y' :: _ => some (natOfDigits ds)
      | _ => none
  | _ => none

/-- Leftmost match of `in (\d+) days?`. -/
def inDaysScan : List Char → Option Nat
  | [] => none
  | c :: rest =>
    match inDaysAt (c :: rest) with
    | some n => some n
    | none => inDaysScan rest

/-- `lowerText.match(/in (\d+) days?/)`, returning the captured count. -/
def inDaysMatch (s : String) : Option Nat := inDaysScan s.toList

/-! ### The `(\d{1,2})[slash or hyphen](\d{1,2})` regex (date stage, original text)

At a given start, JS tries two digits for the first group, backtracking to
one; the backtrack can only succeed when the second character is `/` or `-`,
which the explicit cases below cover.  The second group is a greedy one-or-
two digit munch with nothing after it. -/

/-- Is `c` the `[slash or hyphen]` separator? -/
def isSep (c : Char) : Bool := c == '/' || c == '-'

/-- Greedy one-or-two-digit munch starting at digit `a`:
(value, number of digits, rest). -/
def twoDigitMunch (a : Char) : List Char → Nat × Nat × List Char
  | b :: rest => if isDig b then (digVal a * 10 + digVal b, 2, rest) else (digVal a, 1, b :: rest)
  | [] => (digVal a, 1, [])

/-- Greedy one-or-two-digit capture at the head of `l` (second group). -/
def twoDigits : List Char → Option Nat
  | a :: rest => if isDig a then some (twoDigitMunch a rest).1 else none
  | [] => none

/-- Attempt `(\d{1,2})[slash or hyphen](\d{1,2})` at the head of `l`. -/
def mdAt : List Char → Option (Nat × Nat)
  | a :: b :: rest =>
    if isDig a then
      if isDig b then
        match rest with
        | s :: rest2 =>
          if isSep s then
            match twoDigits rest2 with
            | some d => some (digVal a * 10 + digVal b, d)
            | none => none
          else none
        | [] => none
      else if isSep b then
        match twoDigits rest with
        | some d => some (digVal a, d)
        | none => none
      else none
    else none
  | _ => none

/-- Leftmost match of `(\d{1,2})[slash or hyphen](\d{1,2})`. -/
def mdScan : List Char → Option (Nat × Nat)
  | [] => none
  | c :: rest =>
    match mdAt (c :: rest) with
    | some r => some r
    | none => mdScan rest

/-- `text.match(/(\d{1,2})[slash or hyphen](\d{1,2})/)`, returning both captures. -/
def mdMatch (s : String) : Option (Nat × Nat) := mdScan s.toList

/-! ### The `(\d{1,2})(?::(\d{2}))?\s*(am|pm)/i` regex (time stage, original text)

Greedy choices are deterministic here: retrying one digit instead of two
fails because the next character is a digit, skipping a matched `:(\d{2})`
fails because the next character is then `:`, and giving back whitespace
fails because the next character is then whitespace.  So a straight-line
maximal-munch matcher is faithful to the JS backtracking search. -/

/-- Final `(am|pm)` (case-insensitive) of the 12-hour regex. -/
def time12Merid (h m : Nat) : List Char → Option (Nat × Nat × Bool)
  | p :: q :: _ =>
    if (p.toLower == 'a' || p.toLower == 'p') && q.toLower == 'm' then
      some (h, m, p.toLower == 'p')
    else none
  | _ => none

/-- Optional `:(\d{2})` then `\s*(am|pm)` of the 12-hour regex. -/
def time12Tail (h : Nat) (l : List Char) : Option (Nat × Nat × Bool) :=
  match l with
  | ':' :: c1 :: c2 :: rest =>
    if isDig c1 && isDig c2 then
      time12Merid h (digVal c1 * 10 + digVal c2) (rest.dropWhile Char.isWhitespace)
    else
      time12Merid h 0 (l.dropWhile Char.isWhitespace)
  | _ => time12Merid h 0 (l.dropWhile Char.isWhitespace)

/-- Attempt the full 12-hour regex at the head of `l`. -/
def time12At : List Char → Option (Nat × Nat × Bool)
  | a :: rest =>
    if isDig a then time12Tail (twoDigitMunch a rest).1 (twoDigitMunch a rest).2.2
    else none
  | [] => none

/-- Leftmost match of the 12-hour regex. -/
def time12Scan : List Char → Option (Nat × Nat × Bool)
  | [] => none
  | c :: rest =>
    match time12At (c :: rest) with
    | some r => some r
    | none => time12Scan rest

/-- `text.match(/(\d{1,2})(?::(\d{2}))?\s*(am|pm)/i)` as
(hour capture, minute capture or 0, meridiem is pm). -/
def time12Match (s : String) : Option (Nat × Nat × Bool) := time12Scan s.toList

/-! ### The `(\d{1,2}):(\d{2})` regex (24-hour pattern, original text) -/

/-- Attempt `(\d{1,2}):(\d{2})` at the head of `l`. -/
def time24At : List Char → Option (Nat × Nat)
  | a :: rest =>
    if isDig a then
      match (twoDigitMunch a rest).2.2 with
      | ':' :: c1 :: c2 :: _ =>
        if isDig c1 && isDig c2 then some ((twoDigitMunch a rest).1, digVal c1 * 10 + digVal c2)
        else none
      | _ => none
    else none
  | [] => none

/-- Leftmost match of `(\d{1,2}):(\d{2})`. -/
def time24Scan : List Char → Option (Nat × Nat)
  | [] => none
  | c :: rest =>
    match time24At (c :: rest) with
    | some r => some r
    | none => time24Scan rest

/-- `text.match(/(\d{1,2}):(\d{2})/)` as (hours, minutes). -/
def time24Match (s : String) : Option (Nat × Nat) := time24Scan s.toList

/-! ### Civil-date arithmetic (model of the JS `Date` operations used) -/

/-- `Date.getDay()` (0 = Sunday) of the midnight instant with day count `t`;
day 0 = 0000-03-01 is a Wednesday. -/
def getDay (t : Nat) : Nat := (t + 3) % 7

/-- Day count of the civil date `y-m-d` (month 1..12); days past the end of
the month overflow linearly into later months, as JS `Date` arithmetic does. -/
def daysFromCivil (y m d : Nat) : Nat :=
  let y' := if m ≤ 2 then y - 1 else y
  let era := y' / 400
  let yoe := y' % 400
  let mp := (m + 9) % 12
  let doy := (153 * mp + 2) / 5 + (d - 1)
  let doe := yoe * 365 + yoe / 4 - yoe / 100 + doy
  era * 146097 + doe

/-- Civil date (year, month 1..12, day 1..31) of a day count. -/
def civilFromDays (z : Nat) : Nat × Nat × Nat :=
  let era := z / 146097
  let doe := z % 146097
  let yoe := (doe - doe / 1460 + doe / 36524 - doe / 146096) / 365
  let y := yoe + era * 400
  let doy := doe - (365 * yoe + yoe / 4 - yoe / 100)
  let mp := (5 * doy + 2) / 153
  let d := doy - (153 * mp + 2) / 5 + 1
  let m := if mp < 10 then mp + 3 else mp - 9
  (if m ≤ 2 then y + 1 else y, m, d)

/-- `today.getFullYear()`. -/
def getFullYear (t : Nat) : Nat := (civilFromDays t).1

/-- The specific-date rule `new Date(year, month, day)` with
`month = parseInt(m) - 1` and the year rolled forward when the result is
strictly before `today` (`specificDate.setFullYear(year + 1)` keeps the
normalized month and day-of-month, letting a Feb 29 overflow to Mar 1).
`mo` and `da` are the raw regex captures. -/
def jsSpecificDate (today mo da : Nat) : Nat :=
  let tm := 12 * getFullYear today + mo - 1
  let base := daysFromCivil (tm / 12) (tm % 12 + 1) 1 + da - 1
  if base < today then
    daysFromCivil ((civilFromDays base).1 + 1) (civilFromDays base).2.1 (civilFromDays base).2.2
  else base

/-! ### Date extraction (source lines 95-160) -/

/-- `const daysUntilSaturday = (6 - today.getDay() + 7) % 7 || 7` followed by
`saturday.setDate(saturday.getDate() + daysUntilSaturday)`; written with the
subtraction reordered so it stays in `Nat` (`getDay today ≤ 6`). -/
def nextSaturday (today : Nat) : Nat :=
  today + (if (6 + 7 - getDay today) % 7 = 0 then 7 else (6 + 7 - getDay today) % 7)

/-- `daysToAdd = (targetDay - currentDay + 7) % 7`, replaced by 7 when 0,
added to `today` (weekday-name rule). -/
def weekdayTarget (i today : Nat) : Nat :=
  today + (if (i + 7 - getDay today) % 7 = 0 then 7 else (i + 7 - getDay today) % 7)

/-- The weekday-name table, Sunday-first. -/
def weekdayNames : List String :=
  ["sunday", "monday", "tuesday", "wednesday", "thursday", "friday", "saturday"]

/-- The `for` loop over `days` with `break`: index of the first weekday name
contained in the lowercased text. -/
def firstWeekday (lower : String) : Option Nat :=
  (List.range 7).find? (fun i => containsStr lower (weekdayNames.getD i ""))

/-- Relative-phrase rules 1-5 (the `if`/`else if` chain of the source). -/
def relativeDate (lower : String) (today : Nat) : Option Nat :=
  if containsStr lower "tomorrow" then some (today + 1)
  else if containsStr lower "today" then some today
  else if containsStr lower "next week" then some (today + 7)
  else if containsStr lower "weekend" || containsStr lower "saturday"
      || containsStr lower "sunday" then some (nextSaturday today)
  else
    match firstWeekday lower with
    | some i => some (weekdayTarget i today)
    | none => none

/-- The whole date stage: relative rules, then the unconditional
`in N days` rule, then the unconditional `M/D` rule, each later match
overwriting the earlier result. -/
def extractDate (text : String) (today : Nat) : Option Nat :=
  let lower := lowerStr text
  let d1 :=
    match inDaysMatch lower with
    | some n => some (today + n)
    | none => relativeDate lower today
  match mdMatch text with
  | some md => some (jsSpecificDate today md.1 md.2)
  | none => d1

/-! ### Time extraction (source lines 163-196) -/

/-- The word-based time cascade (`noon` … `night`), `none` when no keyword
occurs.  Note `"afternoon"` contains `"noon"`, and `"midnight"` contains
`"night"`; the declared order decides, exactly as in the source. -/
def wordTime (lower : String) : Option (Nat × Nat) :=
  if containsStr lower "noon" then some (12, 0)
  else if containsStr lower "midnight" then some (0, 0)
  else if containsStr lower "morning" then some (9, 0)
  else if containsStr lower "afternoon" then some (14, 0)
  else if containsStr lower "evening" then some (18, 0)
  else if containsStr lower "night" then some (20, 0)
  else none

/-- `if (meridiem === 'pm' && hours !== 12) hours += 12`. -/
def normStep1 (h : Nat) (pm : Bool) : Nat := if pm && h != 12 then h + 12 else h

/-- `if (meridiem === 'am' && hours === 12) hours = 0`, run on the hours
value left by the previous step. -/
def normStep2 (h : Nat) (pm : Bool) : Nat := if !pm && h == 12 then 0 else h

/-- The two sequential normalization statements of the 12-hour branch. -/
def normalize12 (h : Nat) (pm : Bool) : Nat := normStep2 (normStep1 h pm) pm

/-- Numeric time: the 12-hour pattern with pm/am normalization, else the
24-hour pattern guarded by its range check. -/
def numericTime (text : String) : Option (Nat × Nat) :=
  match time12Match text with
  | some hmp => some (normalize12 hmp.1 hmp.2.2, hmp.2.1)
  | none =>
    match time24Match text with
    | some hm => if hm.1 < 24 && hm.2 < 60 then some hm else none
    | none => none

/-- The whole time stage: word-based keywords overwrite whatever the numeric
patterns produced. -/
def extractTime (text : String) : Option (Nat × Nat) :=
  match wordTime (lowerStr text) with
  | some t => some t
  | none => numericTime text

/-! ### Category, priority, recurrence (source lines 65-93, 198-206) -/

/-- `categoryKeywords`, in `Object.entries` (insertion) order. -/
def categoryKeywords : List (String × List String) :=
  [("Work", ["meeting", "presentation", "report", "project", "client", "deadline",
             "email", "call", "conference"]),
   ("Personal", ["birthday", "anniversary", "family", "friend", "party", "dinner",
                 "lunch", "movie"]),
   ("Health", ["doctor", "dentist", "gym", "workout", "exercise", "medicine",
               "appointment", "health", "hospital"]),
   ("Finance", ["pay", "bill", "rent", "mortgage", "tax", "invoice", "budget",
                "bank", "payment"]),
   ("Shopping", ["buy", "purchase", "shop", "store", "grocery", "groceries",
                 "mall", "order", "get"])]

/-- First category (in declaration order) with a keyword contained in the
lowercased text; `"Other"` otherwise. -/
def detectCategory (lower : String) : String :=
  match categoryKeywords.find? (fun p => p.2.any (fun k => containsStr lower k)) with
  | some p => p.1
  | none => "Other"

/-- `highPriorityKeywords` (note that it includes `"must"`). -/
def highPriorityKeywords : List String :=
  ["urgent", "asap", "important", "critical", "immediately", "priority", "must"]

/-- `lowPriorityKeywords`. -/
def lowPriorityKeywords : List String :=
  ["maybe", "someday", "eventually", "when possible", "if time"]

/-- Priority detection: high before low, `"Medium"` default. -/
def detectPriority (lower : String) : String :=
  if highPriorityKeywords.any (fun k => containsStr lower k) then "High"
  else if lowPriorityKeywords.any (fun k => containsStr lower k) then "Low"
  else "Medium"

/-- Recurrence detection, first match wins. -/
def detectRecurring (lower : String) : String :=
  if containsStr lower "every day" || containsStr lower "daily" then "daily"
  else if containsStr lower "every week" || containsStr lower "weekly" then "weekly"
  else if containsStr lower "every month" || containsStr lower "monthly" then "monthly"
  else "none"

/-! ### Title cleaning (source lines 208-222)

Each `.replace(regex, '')` with the `g` flag is a left-to-right scan that
removes non-overlapping matches; `\b` is judged against the characters of
the string that pass is running on, so the engine threads the previous
character through.  Alternations are tried in declared order. -/

/-- `\w` of JS regexes. -/
def isWordChar (c : Char) : Bool := c.isAlphanum || c == '_'

/-- Word boundary before a word character, given the previous character. -/
def atBoundary : Option Char → Bool
  | none => true
  | some c => !isWordChar c

/-- Word boundary after a word character, given the rest of the text. -/
def endBoundary : List Char → Bool
  | [] => true
  | c :: _ => !isWordChar c

/-- Case-insensitive literal prefix match (pattern given lowercased),
returning the rest of the text. -/
def matchCI : List Char → List Char → Option (List Char)
  | [], l => some l
  | _ :: _, [] => none
  | p :: ps, c :: cs => if c.toLower == p then matchCI ps cs else none

/-- First alternative (in order) matching at the head of `l` and followed by
a word boundary; returns the consumed length. -/
def wordAlts : List (List Char) → List Char → Option Nat
  | [], _ => none
  | a :: as, l =>
    match matchCI a l with
    | some rest => if endBoundary rest then some a.length else wordAlts as l
    | none => wordAlts as l

/-- A `\b(w1|w2|…)\b` matcher (all alternatives start and end with word
characters). -/
def wordListAt (ws : List (List Char)) (prev : Option Char) (l : List Char) : Option Nat :=
  if atBoundary prev then wordAlts ws l else none

/-- The `in \d+ days?` alternative of the date-keyword removal pattern,
with its trailing `\b`. -/
def inDaysTitleAt (l : List Char) : Option Nat :=
  match matchCI "in ".toList l with
  | some r1 =>
    let ds := r1.takeWhile isDig
    if ds.isEmpty then none
    else
      match matchCI " day".toList (r1.dropWhile isDig) with
      | some r3 =>
        match r3 with
        | [] => some (3 + ds.length + 4)
        | c :: r4 =>
          if c.toLower == 's' then
            if endBoundary r4 then some (3 + ds.length + 5) else none
          else if isWordChar c then none
          else some (3 + ds.length + 4)
      | none => none
  | none => none

/-- Alternatives of `\b(tomorrow|today|next week|this weekend|in \d+ days?)\b`
that are literal words. -/
def dateStripWords : List (List Char) :=
  ["tomorrow".toList, "today".toList, "next week".toList, "this weekend".toList]

/-- The date-keyword removal pattern. -/
def dateWordsAt (prev : Option Char) (l : List Char) : Option Nat :=
  if atBoundary prev then
    match wordAlts dateStripWords l with
    | some n => some n
    | none => inDaysTitleAt l
  else none

/-- The `\d{1,2}:\d{2}\s*(am|pm)?` removal pattern. -/
def colonTimeAt : List Char → Option Nat
  | a :: rest =>
    if isDig a then
      let nd := (twoDigitMunch a rest).2.1
      match (twoDigitMunch a rest).2.2 with
      | ':' :: c1 :: c2 :: rest2 =>
        if isDig c1 && isDig c2 then
          let ws := rest2.takeWhile Char.isWhitespace
          match rest2.dropWhile Char.isWhitespace with
          | p :: q :: _ =>
            if (p.toLower == 'a' || p.toLower == 'p') && q.toLower == 'm' then
              some (nd + 3 + ws.length + 2)
            else some (nd + 3 + ws.length)
          | _ => some (nd + 3 + ws.length)
        else none
      | _ => none
    else none
  | [] => none

/-- The `\d{1,2}\s*(am|pm)` removal pattern. -/
def digitMeridAt : List Char → Option Nat
  | a :: rest =>
    if isDig a then
      let nd := (twoDigitMunch a rest).2.1
      let rest1 := (twoDigitMunch a rest).2.2
      let ws := rest1.takeWhile Char.isWhitespace
      match rest1.dropWhile Char.isWhitespace with
      | p :: q :: _ =>
        if (p.toLower == 'a' || p.toLower == 'p') && q.toLower == 'm' then
          some (nd + ws.length + 2)
        else none
      | _ => none
    else none
  | [] => none

/-- The `\bat\s+` / `\bon\s+` removal patterns (parameter `w` is the word). -/
def prepAt (w : List Char) (prev : Option Char) (l : List Char) : Option Nat :=
  if atBoundary prev then
    match matchCI w l with
    | some rest =>
      let ws := rest.takeWhile Char.isWhitespace
      if ws.isEmpty then none else some (w.length + ws.length)
    | none => none
  else none

/-- Alternatives of the recurrence-keyword removal pattern. -/
def recurringStripWords : List (List Char) :=
  ["every day".toList, "daily".toList, "every week".toList, "weekly".toList,
   "every month".toList, "monthly".toList]

/-- One global `replace(pattern, '')` pass: scan left to right, drop each
(non-overlapping) match, keep other characters.  The fuel equals the input
length; every step consumes at least one character, so it never runs out. -/
def runStripFuel (m : Option Char → List Char → Option Nat) :
    Nat → Option Char → List Char → List Char
  | 0, _, l => l
  | _ + 1, _, [] => []
  | fuel + 1, prev, c :: rest =>
    match m prev (c :: rest) with
    | some (n + 1) =>
      runStripFuel m fuel (((c :: rest).take (n + 1)).getLast?) ((c :: rest).drop (n + 1))
    | _ => c :: runStripFuel m fuel (some c) rest

/-- Apply one removal pass to a whole string. -/
def stripAll (m : Option Char → List Char → Option Nat) (l : List Char) : List Char :=
  runStripFuel m l.length none l

/-- `replace(/\s+/g, ' ')`: collapse each maximal whitespace run to one
space. -/
def collapseWSAux : Bool → List Char → List Char
  | _, [] => []
  | inWS, c :: rest =>
    if c.isWhitespace then
      if inWS then collapseWSAux true rest
      else ' ' :: collapseWSAux true rest
    else c :: collapseWSAux false rest

/-- Whitespace collapsing at the top level. -/
def collapseWS (l : List Char) : List Char := collapseWSAux false l

/-- `String.trim`: drop leading and trailing whitespace. -/
def trimList (l : List Char) : List Char :=
  ((l.dropWhile Char.isWhitespace).reverse.dropWhile Char.isWhitespace).reverse

/-- Alternatives of the priority-keyword removal pattern (note: `"must"`,
although a high-priority trigger, is NOT in this list, mirroring the
source). -/
def priorityStripWords : List (List Char) :=
  ["urgent".toList, "asap".toList, "important".toList, "critical".toList,
   "immediately".toList, "priority".toList]

/-- The cleaned title before capitalization: the seven `replace(..., '')`
passes in source order, then whitespace collapsing and trimming. -/
def strippedTitle (text : String) : List Char :=
  let l1 := stripAll (wordListAt priorityStripWords) text.toList
  let l2 := stripAll dateWordsAt l1
  let l3 := stripAll (fun _ l => colonTimeAt l) l2
  let l4 := stripAll (fun _ l => digitMeridAt l) l3
  let l5 := stripAll (prepAt "at".toList) l4
  let l6 := stripAll (prepAt "on".toList) l5
  let l7 := stripAll (wordListAt recurringStripWords) l6
  trimList (collapseWS l7)

/-- `title.charAt(0).toUpperCase() + title.slice(1)`; on the empty string
this is the empty string (JS `"".charAt(0)` is `""`). -/
def capFirstL : List Char → String
  | [] => ""
  | c :: rest => String.mk (c.toUpper :: rest)

/-- The whole title stage. -/
def cleanTitle (text : String) : String := capFirstL (strippedTitle text)

/-! ### The full parser -/

/-- The record returned by `parseNaturalLanguage`. -/
structure ParseResult where
  title : String
  category : String
  priority : String
  dueDate : Option Nat
  dueTime : Option (Nat × Nat)
  recurring : String
deriving DecidableEq, Repr

/-- `parseNaturalLanguage(text)` with the reference midnight `today` made
an explicit parameter. -/
def parseNaturalLanguage (text : String) (today : Nat) : ParseResult :=
  ⟨cleanTitle text, detectCategory (lowerStr text), detectPriority (lowerStr text),
   extractDate text today, extractTime text, detectRecurring (lowerStr text)⟩

/-! ### Helper lemmas -/

theorem parse_dueDate (text : String) (today : Nat) :
    (parseNaturalLanguage text today).dueDate = extractDate text today := rfl

theorem parse_dueTime (text : String) (today : Nat) :
    (parseNaturalLanguage text today).dueTime = extractTime text := rfl

theorem parse_title (text : String) (today : Nat) :
    (parseNaturalLanguage text today).title = cleanTitle text := by
  simp only [parseNaturalLanguage]

theorem parse_priority (text : String) (today : Nat) :
    (parseNaturalLanguage text today).priority = detectPriority (lowerStr text) := by
  simp only [parseNaturalLanguage]

theorem extractDate_md (text : String) (today mo da : Nat)
    (h : mdMatch text = some (mo, da)) :
    extractDate text today = some (jsSpecificDate today mo da) := by
  unfold extractDate
  rw [h]

theorem extractDate_md_none (text : String) (today : Nat)
    (h : mdMatch text = none) :
    extractDate text today =
      match inDaysMatch (lowerStr text) with
      | some n => some (today + n)
      | none => relativeDate (lowerStr text) today := by
  unfold extractDate
  rw [h]

theorem extractDate_inDays (text : String) (today n : Nat)
    (h1 : mdMatch text = none) (h2 : inDaysMatch (lowerStr text) = some n) :
    extractDate text today = some (today + n) := by
  rw [extractDate_md_none text today h1, h2]

theorem extractDate_relative (text : String) (today : Nat)
    (h1 : mdMatch text = none) (h2 : inDaysMatch (lowerStr text) = none) :
    extractDate text today = relativeDate (lowerStr text) today := by
  rw [extractDate_md_none text today h1, h2]

theorem relativeDate_tomorrow (lower : String) (today : Nat)
    (h : containsStr lower "tomorrow" = true) :
    relativeDate lower today = some (today + 1) := by
  simp [relativeDate, h]

theorem relativeDate_weekend (lower : String) (today : Nat)
    (h1 : containsStr lower "tomorrow" = false)
    (h2 : containsStr lower "today" = false)
    (h3 : containsStr lower "next week" = false)
    (h4 : (containsStr lower "weekend" || containsStr lower "saturday"
        || containsStr lower "sunday") = true) :
    relativeDate lower today = some (nextSaturday today) := by
  simp [relativeDate, h1, h2, h3, h4]

theorem relativeDate_weekday (lower : String) (today i : Nat)
    (h1 : containsStr lower "tomorrow" = false)
    (h2 : containsStr lower "today" = false)
    (h3 : containsStr lower "next week" = false)
    (h4 : (containsStr lower "weekend" || containsStr lower "saturday"
        || containsStr lower "sunday") = false)
    (h5 : firstWeekday lower = some i) :
    relativeDate lower today = some (weekdayTarget i today) := by
  simp [relativeDate, h1, h2, h3, h4, h5]

theorem nextSaturday_ne (today : Nat) : nextSaturday today ≠ today := by
  unfold nextSaturday
  by_cases h : (6 + 7 - getDay today) % 7 = 0
  · simp [h]
  · simp only [h, if_false]
    omega

/-! ### Claim theorems -/

/-- C9: `parse("")` raises no error (the model is a total function) and
returns category Other, priority Medium, no due date, no due time,
recurrence none, and the empty string passed through as title. -/
theorem C9_empty_input (today : Nat) :
    parseNaturalLanguage "" today = ⟨"", "Other", "Medium", none, none, "none"⟩ := by
  rfl

/-- C2 counterexample: the relative-phrase rules are an `if`/`else if`
chain, so for an input containing both "tomorrow" and "next week" the FIRST
rule wins: the due date is today + 1, not today + 7 as the claim states. -/
theorem C2_counterexample :
    containsStr (lowerStr "tomorrow next week") "tomorrow" = true ∧
    containsStr (lowerStr "tomorrow next week") "next week" = true ∧
    (parseNaturalLanguage "tomorrow next week" 0).dueDate = some 1 ∧
    (parseNaturalLanguage "tomorrow next week" 0).dueDate ≠ some 7 := by
  refine ⟨by decide, by decide, by decide, by decide⟩

/-- C2 amended: rules 1-5 form a first-match-wins `if`/`else if` cascade
(no overwriting among them); in particular any input containing "tomorrow"
(and no "in N days" or M/D pattern, which are evaluated later and would
overwrite) gets due date today + 1, regardless of which other relative
phrases it also contains. -/
theorem C2_first_rule_wins (text : String) (today : Nat)
    (h1 : containsStr (lowerStr text) "tomorrow" = true)
    (h2 : inDaysMatch (lowerStr text) = none)
    (h3 : mdMatch text = none) :
    (parseNaturalLanguage text today).dueDate = some (today + 1) := by
  rw [parse_dueDate, extractDate_relative text today h3 h2,
    relativeDate_tomorrow _ _ h1]

/-- C2 witness: the amended theorem applied to "tomorrow next week". -/
theorem C2_witness :
    (parseNaturalLanguage "tomorrow next week" 5).dueDate = some 6 :=
  C2_first_rule_wins "tomorrow next week" 5 (by decide) (by decide) (by decide)

/-- C3: the "in N days" rule is evaluated after (and overwrites) all
relative-phrase rules, so with no M/D match the due date is today + N; and
the M/D rule is evaluated last unconditionally, so whenever it matches it
alone determines the due date. -/
theorem C3_late_rules_win :
    (∀ (text : String) (today n : Nat),
      inDaysMatch (lowerStr text) = some n → mdMatch text = none →
      (parseNaturalLanguage text today).dueDate = some (today + n)) ∧
    (∀ (text : String) (today mo da : Nat),
      mdMatch text = some (mo, da) →
      (parseNaturalLanguage text today).dueDate = some (jsSpecificDate today mo da)) := by
  constructor
  · intro text today n h2 h3
    rw [parse_dueDate, extractDate_inDays text today n h3 h2]
  · intro text today mo da h
    rw [parse_dueDate, extractDate_md text today mo da h]

/-- C3 witness: "tomorrow in 3 days" resolves through the "in N days" rule
to today + 3, and a M/D pattern present alongside other phrases decides the
date. -/
theorem C3_witness :
    (parseNaturalLanguage "tomorrow in 3 days" 10).dueDate = some 13 ∧
    (parseNaturalLanguage "pay 5/6 tomorrow" 0).dueDate = some (jsSpecificDate 0 5 6) :=
  ⟨C3_late_rules_win.1 "tomorrow in 3 days" 10 3 (by decide) (by decide),
   C3_late_rules_win.2 "pay 5/6 tomorrow" 0 5 6 (by decide)⟩

/-- C10: whenever the M/D regex matches, the date stage produces a date
(total, no failure), out-of-range captures overflowing arithmetically;
concretely "13/5" seen on 2026-10-11 resolves to January 5 of 2027. -/
theorem C10_md_total :
    (∀ (text : String) (today mo da : Nat),
      mdMatch text = some (mo, da) →
      ((parseNaturalLanguage text today).dueDate).isSome = true) ∧
    (parseNaturalLanguage "13/5" (daysFromCivil 2026 10 11)).dueDate =
      some (daysFromCivil 2027 1 5) := by
  constructor
  · intro text today mo da h
    rw [parse_dueDate, extractDate_md text today mo da h]
    rfl
  · decide

/-- C10 witness: the totality statement applied to "13/5". -/
theorem C10_witness :
    ((parseNaturalLanguage "13/5" 0).dueDate).isSome = true :=
  C10_md_total.1 "13/5" 0 13 5 (by decide)

/-- C5 counterexample: "saturday in 9 days" contains "saturday" and none of
"tomorrow"/"today"/"next week", yet its due date comes from the later
"in N days" rule (today + 9), not the next-Saturday computation. -/
theorem C5_counterexample :
    (containsStr (lowerStr "saturday in 9 days") "weekend"
      || containsStr (lowerStr "saturday in 9 days") "saturday"
      || containsStr (lowerStr "saturday in 9 days") "sunday") = true ∧
    containsStr (lowerStr "saturday in 9 days") "tomorrow" = false ∧
    containsStr (lowerStr "saturday in 9 days") "today" = false ∧
    containsStr (lowerStr "saturday in 9 days") "next week" = false ∧
    nextSaturday 0 = 3 ∧
    (parseNaturalLanguage "saturday in 9 days" 0).dueDate = some 9 ∧
    (parseNaturalLanguage "saturday in 9 days" 0).dueDate ≠ some (nextSaturday 0) := by
  refine ⟨by decide, by decide, by decide, by decide, by decide, by decide, by decide⟩

/-- C5 amended: for inputs containing "weekend"/"saturday"/"sunday", none of
"tomorrow"/"today"/"next week", and additionally no "in N days" and no M/D
pattern (which are evaluated later and overwrite), the due date is the next
upcoming Saturday, today + ((6 - weekday + 7) mod 7) with offset 0 replaced
by 7, and is never equal to today. -/
theorem C5_weekend_rule (text : String) (today : Nat)
    (h4 : (containsStr (lowerStr text) "weekend" || containsStr (lowerStr text) "saturday"
        || containsStr (lowerStr text) "sunday") = true)
    (h1 : containsStr (lowerStr text) "tomorrow" = false)
    (h2 : containsStr (lowerStr text) "today" = false)
    (h3 : containsStr (lowerStr text) "next week" = false)
    (h5 : inDaysMatch (lowerStr text) = none)
    (h6 : mdMatch text = none) :
    (parseNaturalLanguage text today).dueDate = some (nextSaturday today) ∧
    (parseNaturalLanguage text today).dueDate ≠ some today := by
  have hd : (parseNaturalLanguage text today).dueDate = some (nextSaturday today) := by
    rw [parse_dueDate, extractDate_relative text today h6 h5,
      relativeDate_weekend _ _ h1 h2 h3 h4]
  refine ⟨hd, ?_⟩
  rw [hd]
  intro hc
  exact nextSaturday_ne today (Option.some.inj hc)

/-- C5 witness: the amended theorem applied to "party saturday" with today
a Sunday (day count 4). -/
theorem C5_witness :
    (parseNaturalLanguage "party saturday" 4).dueDate = some (nextSaturday 4) ∧
    (parseNaturalLanguage "party saturday" 4).dueDate ≠ some 4 :=
  C5_weekend_rule "party saturday" 4 (by decide) (by decide) (by decide)
    (by decide) (by decide) (by decide)

/-- C6 counterexample: "monday in 9 days" reaches the weekday-name rule
(no earlier relative rule matches) and its first weekday name is monday
(index 1), yet the due date comes from the later "in N days" rule
(today + 9), not today + offset(monday). -/
theorem C6_counterexample :
    containsStr (lowerStr "monday in 9 days") "tomorrow" = false ∧
    containsStr (lowerStr "monday in 9 days") "today" = false ∧
    containsStr (lowerStr "monday in 9 days") "next week" = false ∧
    (containsStr (lowerStr "monday in 9 days") "weekend"
      || containsStr (lowerStr "monday in 9 days") "saturday"
      || containsStr (lowerStr "monday in 9 days") "sunday") = false ∧
    firstWeekday (lowerStr "monday in 9 days") = some 1 ∧
    weekdayTarget 1 0 = 5 ∧
    (parseNaturalLanguage "monday in 9 days" 0).dueDate = some 9 ∧
    (parseNaturalLanguage "monday in 9 days" 0).dueDate ≠ some (weekdayTarget 1 0) := by
  refine ⟨by decide, by decide, by decide, by decide, by decide, by decide,
    by decide, by decide⟩

/-- C6 amended: for inputs that reach the weekday-name rule (no earlier
relative-phrase rule matched) whose first weekday name in Sunday-first
index order is `i`, and that additionally contain no "in N days" and no M/D
pattern (evaluated later, overwriting), the due date is
today + ((i - weekday + 7) mod 7) with offset 0 replaced by 7; only the
first weekday name in index order is used. -/
theorem C6_weekday_rule (text : String) (today i : Nat)
    (h1 : containsStr (lowerStr text) "tomorrow" = false)
    (h2 : containsStr (lowerStr text) "today" = false)
    (h3 : containsStr (lowerStr text) "next week" = false)
    (h4 : (containsStr (lowerStr text) "weekend" || containsStr (lowerStr text) "saturday"
        || containsStr (lowerStr text) "sunday") = false)
    (h5 : firstWeekday (lowerStr text) = some i)
    (h6 : inDaysMatch (lowerStr text) = none)
    (h7 : mdMatch text = none) :
    (parseNaturalLanguage text today).dueDate = some (weekdayTarget i today) := by
  rw [parse_dueDate, extractDate_relative text today h7 h6,
    relativeDate_weekday _ today i h1 h2 h3 h4 h5]

/-- C6 witness: the amended theorem applied to "dentist monday" with today
a Wednesday (day count 0). -/
theorem C6_witness :
    (parseNaturalLanguage "dentist monday" 0).dueDate = some 5 :=
  C6_weekday_rule "dentist monday" 0 1 (by decide) (by decide) (by decide)
    (by decide) (by decide) (by decide) (by decide)

/-- C4 counterexample: the input "tomorrow" is non-empty after trimming but
its whole text is consumed by the removal patterns, and the returned title
is the empty string (no stand-in character exists in the code). -/
theorem C4_counterexample :
    (parseNaturalLanguage "tomorrow" 0).title = "" ∧ ("tomorrow" : String) ≠ "" := by
  refine ⟨by decide, by decide⟩

theorem capFirstL_ne (c : Char) (rest : List Char) : capFirstL (c :: rest) ≠ "" := by
  unfold capFirstL
  intro h
  have h2 : (String.mk (c.toUpper :: rest)).data = ("" : String).data :=
    congrArg String.data h
  simp at h2

/-- C4 amended: the title is the stripped text with its first character
uppercased, with no non-emptiness guarantee: it is empty exactly when the
removal patterns strip everything (e.g. the input "tomorrow"), and
non-empty whenever stripping leaves at least one character. -/
theorem C4_title_empty_iff :
    (∀ (text : String) (today : Nat),
      (strippedTitle text = [] → (parseNaturalLanguage text today).title = "") ∧
      (strippedTitle text ≠ [] → (parseNaturalLanguage text today).title ≠ "")) ∧
    (parseNaturalLanguage "tomorrow" 0).title = "" := by
  constructor
  · intro text today
    constructor
    · intro h
      rw [parse_title]
      unfold cleanTitle
      rw [h]
      rfl
    · intro h
      rw [parse_title]
      unfold cleanTitle
      cases hs : strippedTitle text with
      | nil => exact absurd hs h
      | cons c rest => exact capFirstL_ne c rest
  · decide

/-- C4 witness: a non-empty stripped text yields a non-empty title. -/
theorem C4_witness : (parseNaturalLanguage "hello" 0).title ≠ "" :=
  (C4_title_empty_iff.1 "hello" 0).2 (by decide)

/-- C1 counterexample: "must" is a high-priority trigger (it sets priority
High for "pay rent must") but is not among the title removal patterns, so
the returned title still contains the matched fragment "must". -/
theorem C1_counterexample :
    containsStr (lowerStr "pay rent must") "must" = true ∧
    (parseNaturalLanguage "pay rent must" 0).priority = "High" ∧
    containsStr (parseNaturalLanguage "pay rent must" 0).title "must" = true := by
  refine ⟨by decide, by decide, by decide⟩

/-- C1 amended: the title stage strips only its fixed removal patterns, and
the priority trigger "must" (and every low-priority trigger) is not among
them, so a trigger that set the priority can survive in the title: parse of
"pay rent must" yields priority High with the title "Pay rent must" kept
verbatim (up to first-letter capitalization). -/
theorem C1_must_survives (today : Nat) :
    (parseNaturalLanguage "pay rent must" today).priority = "High" ∧
    (parseNaturalLanguage "pay rent must" today).title = "Pay rent must" := by
  constructor
  · rw [parse_priority]
    decide
  · rw [parse_title]
    decide

/-! ### Bounds on the time extractor (for C7) -/

theorem digVal_le (c : Char) (h : isDig c = true) : digVal c ≤ 9 := by
  simp [isDig] at h
  simp [digVal]
  omega

theorem twoDigitMunch_le (a : Char) (l : List Char) (ha : isDig a = true) :
    (twoDigitMunch a l).1 ≤ 99 := by
  have h9 := digVal_le a ha
  cases l with
  | nil => simp [twoDigitMunch]; omega
  | cons b rest =>
    by_cases hb : isDig b = true
    · have := digVal_le b hb
      simp [twoDigitMunch, hb]
      omega
    · simp [twoDigitMunch, hb]
      omega

theorem time12Merid_inv (h m : Nat) (l : List Char) (r : Nat × Nat × Bool)
    (he : time12Merid h m l = some r) : r.1 = h ∧ r.2.1 = m := by
  unfold time12Merid at he
  split at he
  · split at he
    · injection he with h1
      subst h1
      exact ⟨rfl, rfl⟩
    · exact absurd he (by simp)
  · exact absurd he (by simp)

theorem time12Tail_le (h : Nat) (l : List Char) (r : Nat × Nat × Bool)
    (hh : h ≤ 99) (he : time12Tail h l = some r) : r.1 ≤ 99 ∧ r.2.1 ≤ 99 := by
  unfold time12Tail at he
  split at he
  · rename_i c1 c2 rest
    split at he
    · rename_i hc
      simp only [Bool.and_eq_true] at hc
      obtain ⟨hm1, hm2⟩ := time12Merid_inv _ _ _ _ he
      have := digVal_le c1 hc.1
      have := digVal_le c2 hc.2
      omega
    · obtain ⟨hm1, hm2⟩ := time12Merid_inv _ _ _ _ he
      omega
  · obtain ⟨hm1, hm2⟩ := time12Merid_inv _ _ _ _ he
    omega

theorem time12At_le (l : List Char) (r : Nat × Nat × Bool)
    (he : time12At l = some r) : r.1 ≤ 99 ∧ r.2.1 ≤ 99 := by
  cases l with
  | nil => simp [time12At] at he
  | cons a rest =>
    have he' : (if isDig a = true then
        time12Tail (twoDigitMunch a rest).1 (twoDigitMunch a rest).2.2
      else none) = some r := he
    by_cases ha : isDig a = true
    · rw [if_pos ha] at he'
      exact time12Tail_le _ _ _ (twoDigitMunch_le a rest ha) he'
    · rw [if_neg ha] at he'
      exact Option.noConfusion he'

theorem time12Scan_le (l : List Char) (r : Nat × Nat × Bool)
    (he : time12Scan l = some r) : r.1 ≤ 99 ∧ r.2.1 ≤ 99 := by
  induction l with
  | nil => simp [time12Scan] at he
  | cons c rest ih =>
    have he' : (match time12At (c :: rest) with
      | some r2 => some r2
      | none => time12Scan rest) = some r := he
    cases h12 : time12At (c :: rest) with
    | some r2 =>
      rw [h12] at he'
      have he2 : some r2 = some r := he'
      injection he2 with h1
      subst h1
      exact time12At_le _ _ h12
    | none =>
      rw [h12] at he'
      exact ih he'

theorem time12Match_le (s : String) (r : Nat × Nat × Bool)
    (he : time12Match s = some r) : r.1 ≤ 99 ∧ r.2.1 ≤ 99 :=
  time12Scan_le s.toList r he

theorem normalize12_le (h : Nat) (pm : Bool) (hh : h ≤ 99) :
    normalize12 h pm ≤ 111 := by
  unfold normalize12 normStep2 normStep1
  split_ifs <;> omega

theorem numericTime_le (text : String) (h m : Nat)
    (he : numericTime text = some (h, m)) : h ≤ 111 ∧ m ≤ 99 := by
  unfold numericTime at he
  cases h12 : time12Match text with
  | some hmp =>
    rw [h12] at he
    obtain ⟨hb1, hb2⟩ := time12Match_le _ _ h12
    have he' : some (normalize12 hmp.1 hmp.2.2, hmp.2.1) = some (h, m) := he
    have hn := normalize12_le hmp.1 hmp.2.2 hb1
    simp only [Option.some.injEq, Prod.mk.injEq] at he'
    omega
  | none =>
    rw [h12] at he
    have he1 : (match time24Match text with
      | some hm2 => if hm2.1 < 24 && hm2.2 < 60 then some hm2 else none
      | none => none) = some (h, m) := he
    cases h24 : time24Match text with
    | some hm2 =>
      rw [h24] at he1
      have he2 : (if hm2.1 < 24 && hm2.2 < 60 then some hm2 else none) = some (h, m) := he1
      by_cases hc : (hm2.1 < 24 && hm2.2 < 60) = true
      · rw [if_pos hc] at he2
        simp only [Bool.and_eq_true, decide_eq_true_eq] at hc
        simp only [Option.some.injEq] at he2
        have h1a : hm2.1 = h := congrArg Prod.fst he2
        have h1b : hm2.2 = m := congrArg Prod.snd he2
        omega
      · rw [if_neg hc] at he2
        exact Option.noConfusion he2
    | none =>
      rw [h24] at he1
      exact Option.noConfusion he1

theorem wordTime_le (s : String) (h m : Nat) (he : wordTime s = some (h, m)) :
    h ≤ 20 ∧ m = 0 := by
  unfold wordTime at he
  split_ifs at he <;>
    first
      | exact Option.noConfusion he
      | (simp only [Option.some.injEq, Prod.mk.injEq] at he; omega)

theorem extractTime_le (text : String) (h m : Nat)
    (he : extractTime text = some (h, m)) : h ≤ 111 ∧ m ≤ 99 := by
  have he0 : (match wordTime (lowerStr text) with
    | some t => some t
    | none => numericTime text) = some (h, m) := he
  cases hw : wordTime (lowerStr text) with
  | some t =>
    rw [hw] at he0
    have he1 : some t = some (h, m) := he0
    injection he1 with h1
    subst h1
    have := wordTime_le (lowerStr text) h m hw
    omega
  | none =>
    rw [hw] at he0
    exact numericTime_le text h m he0

/-- C7 counterexample: the 12-hour branch does not validate the captured
hour, so "13pm" yields the due time 25:00, whose hour is outside [0,24). -/
theorem C7_counterexample :
    (parseNaturalLanguage "13pm" 0).dueTime = some (25, 0) ∧ ¬(25 < 24) := by
  refine ⟨by decide, by decide⟩

/-- C7 amended: the 24-hour branch enforces hour < 24 and minute < 60 and
the word-based times are well formed, but the 12-hour branch applies the
pm/am normalization to the raw unvalidated one-or-two-digit captures, so
all that holds for every returned due time is hour ≤ 111 (99 + 12) and
minute ≤ 99. -/
theorem C7_time_bounds (text : String) (today h m : Nat)
    (he : (parseNaturalLanguage text today).dueTime = some (h, m)) :
    h ≤ 111 ∧ m ≤ 99 := by
  rw [parse_dueTime] at he
  exact extractTime_le text h m he

/-- C7 witness: the bound applied to the due time of "8pm". -/
theorem C7_witness :
    (parseNaturalLanguage "8pm" 0).dueTime = some (20, 0) ∧ 20 ≤ 111 ∧ 0 ≤ 99 :=
  ⟨by decide, C7_time_bounds "8pm" 0 20 0 (by decide)⟩

/-- C8: a word-based time keyword (first match in the declared order
noon, midnight, morning, afternoon, evening, night) unconditionally
overwrites whatever the numeric patterns produced; in particular
"Meeting at 3pm in the evening" yields 18:00, not 15:00. -/
theorem C8_word_time_overrides :
    (∀ (text : String) (today : Nat) (t : Nat × Nat),
      wordTime (lowerStr text) = some t →
      (parseNaturalLanguage text today).dueTime = some t) ∧
    (∀ today : Nat,
      (parseNaturalLanguage "Meeting at 3pm in the evening" today).dueTime = some (18, 0)) := by
  constructor
  · intro text today t hw
    rw [parse_dueTime]
    unfold extractTime
    rw [hw]
  · intro today
    rw [parse_dueTime]
    decide

/-- C8 witness: the override statement applied to "lunch at noon". -/
theorem C8_witness :
    (parseNaturalLanguage "lunch at noon" 0).dueTime = some (12, 0) :=
  C8_word_time_overrides.1 "lunch at noon" 0 (12, 0) (by decide)

end TaskParser
